import Mathlib

/-!
Shallow embedding of the PHY/SerDes access and patching engine of
target/linux/realtek/files-5.10/drivers/net/phy/rtl83xx-phy.c.

Hardware register accesses (sw_r32 / sw_w32 / mdelay and the per-port
write_phy / read_phy transport) are modelled as trace events; values
returned by hardware reads are supplied by an environment function, so a
theorem quantifying over the environment covers every possible hardware
behaviour.  Machine integers are Nat with explicit masking (mod 2^32 or
mod 2^16) exactly where the C types force truncation.
-/

/-- The two registers of an indirect SerDes access block:
RTL930X_SDS_INDACS_CMD / RTL930X_SDS_INDACS_DATA on the RTL9300, and
RTL931X_SERDES_INDRT_ACCESS_CTRL / RTL931X_SERDES_INDRT_DATA_CTRL on the
RTL9310.  Their numeric MMIO addresses live in a header outside this file;
only their identity matters to the protocol. -/
inductive SdsReg where
  | cmd
  | data
deriving DecidableEq, Repr

/-- One hardware event of an indirect SerDes access: a 32-bit register
read, a 32-bit register write, or an mdelay sleep (milliseconds). -/
inductive SdsEv where
  | rd (r : SdsReg)
  | wr (r : SdsReg) (v : Nat)
  | sleep (ms : Nat)
deriving DecidableEq, Repr

/-- The polling loop shared by all indirect accesses:
for (i = 0; i < 100; i++) { if (!(sw_r32(CMD) & 0x1)) break; mdelay(1); }.
The environment env gives the value returned by the k-th read of the
command register within the enclosing call; k0 is the number of command
register reads the call already performed before entering the loop.
Returns the final value of i together with the event trace of the loop. -/
def sdsPollAux (env : Nat → Nat) (k0 : Nat) : Nat → Nat → Nat × List SdsEv
  | i, 0 => (i, [])
  | i, fuel + 1 =>
    if env (k0 + i) % 2 = 0 then
      (i, [SdsEv.rd SdsReg.cmd])
    else
      let r := sdsPollAux env k0 (i + 1) fuel
      (r.1, SdsEv.rd SdsReg.cmd :: SdsEv.sleep 1 :: r.2)

/-- rtl930x_read_sds_phy: issue the command word (start bit set), poll the
busy bit up to 100 times with mdelay(1), return -EIO (= -5) on timeout,
else the data register masked to 16 bits.  dataV is the value the
environment returns for the read of the data register. -/
def rtl930x_read_sds_phy (phy_addr page phy_reg : Nat) (env : Nat → Nat)
    (dataV : Nat) : Int × List SdsEv :=
  let cmd := (phy_addr <<< 2 ||| page <<< 7 ||| phy_reg <<< 13 ||| 1) % 4294967296
  let r := sdsPollAux env 0 0 100
  if 100 ≤ r.1 then
    (-5, SdsEv.wr SdsReg.cmd cmd :: r.2)
  else
    ((dataV &&& 0xffff : Nat), (SdsEv.wr SdsReg.cmd cmd :: r.2) ++ [SdsEv.rd SdsReg.data])

/-- rtl930x_write_sds_phy: the C function stores the 16-bit value into the
data register, computes the command word (direction=write, start=1) into a
local variable, polls the busy bit, and returns 0 or -EIO.  Note that the
computed command word is never written to the command register; the
embedding mirrors the source line by line. -/
def rtl930x_write_sds_phy (phy_addr page phy_reg v : Nat) (env : Nat → Nat) :
    Int × List SdsEv :=
  let tr0 := [SdsEv.wr SdsReg.data (v % 65536)]
  let _cmd := (phy_addr <<< 2 ||| page <<< 7 ||| phy_reg <<< 13 ||| 0x3) % 4294967296
  let r := sdsPollAux env 0 0 100
  if 100 ≤ r.1 then
    (-5, tr0 ++ r.2)
  else
    (0, tr0 ++ r.2)

/-- rtl931x_read_sds_phy: same handshake as the RTL9300 variant, on the
RTL9310 register pair. -/
def rtl931x_read_sds_phy (phy_addr page phy_reg : Nat) (env : Nat → Nat)
    (dataV : Nat) : Int × List SdsEv :=
  let cmd := (phy_addr <<< 2 ||| page <<< 7 ||| phy_reg <<< 13 ||| 1) % 4294967296
  let r := sdsPollAux env 0 0 100
  if 100 ≤ r.1 then
    (-5, SdsEv.wr SdsReg.cmd cmd :: r.2)
  else
    ((dataV &&& 0xffff : Nat), (SdsEv.wr SdsReg.cmd cmd :: r.2) ++ [SdsEv.rd SdsReg.data])

/-- rtl931x_write_sds_phy: write the command word without the start bits,
store the data value, read the command register back, or in 0x3
(direction=write, start=1) and write it, then poll.  env 0 is the value
the environment returns for the read-back of the command register; the
polling loop reads are env 1, env 2, ... -/
def rtl931x_write_sds_phy (phy_addr page phy_reg v : Nat) (env : Nat → Nat) :
    Int × List SdsEv :=
  let cmd0 := (phy_addr <<< 2 ||| page <<< 7 ||| phy_reg <<< 13) % 4294967296
  let cmd1 := (env 0 ||| 0x3) % 4294967296
  let tr0 := [SdsEv.wr SdsReg.cmd cmd0, SdsEv.wr SdsReg.data (v % 65536),
              SdsEv.rd SdsReg.cmd, SdsEv.wr SdsReg.cmd cmd1]
  let r := sdsPollAux env 1 0 100
  if 100 ≤ r.1 then
    (-5, tr0 ++ r.2)
  else
    (0, tr0 ++ r.2)

/-- Recognises a write to the indirect-access command register. -/
def isCmdWrite : SdsEv → Bool
  | SdsEv.wr SdsReg.cmd _ => true
  | _ => false

/-- Recognises a write to the indirect-access command register whose
start bit (bit 0) is set. -/
def isStartCmdWrite : SdsEv → Bool
  | SdsEv.wr SdsReg.cmd v => v % 2 = 1
  | _ => false

/-- An environment in which the busy bit reads back clear immediately. -/
def idleEnv : Nat → Nat := fun _ => 0

/-! ## Abstract SerDes register file and the RTL9300 bit-field helpers -/

/-- A SerDes register file: (sds, page, reg) → stored value.  For claims
about the bit-field helpers the indirect transport is abstracted to this
register file, with the source types preserved: rtl930x_read_sds_phy
returns its result masked to 16 bits, and rtl930x_write_sds_phy takes a
u16 argument, so a write stores its value mod 2^16. -/
abbrev SdsRegFile : Type := Nat → Nat → Nat → Nat

/-- The read side of the abstracted transport: the & 0xffff comes from
rtl930x_read_sds_phy returning sw_r32(DATA) & 0xffff. -/
def sdsRegRead (σ : SdsRegFile) (sds page reg : Nat) : Nat :=
  σ sds page reg &&& 0xffff

/-- The write side of the abstracted transport: rtl930x_write_sds_phy has
a u16 value parameter, so the stored value is truncated mod 2^16. -/
def sdsRegWrite (σ : SdsRegFile) (sds page reg v : Nat) : SdsRegFile :=
  fun s p r => if s = sds ∧ p = page ∧ r = reg then v % 65536 else σ s p r

/-- rtl9300_sds_field_w: l = end_bit - start_bit - 1; if l < 32,
read-modify-write with mask BIT(l) - 1 shifted to start_bit (u32
arithmetic), else raw overwrite of v. -/
def rtl9300_sds_field_w (σ : SdsRegFile) (sds page reg e s v : Nat) : SdsRegFile :=
  let l : Int := (e : Int) - (s : Int) - 1
  let data : Nat :=
    if l < 32 then
      let mask := 2 ^ l.toNat - 1
      (sdsRegRead σ sds page reg &&& (4294967295 ^^^ ((mask <<< s) % 4294967296)))
        ||| (((v &&& mask) <<< s) % 4294967296)
    else v
  sdsRegWrite σ sds page reg data

/-- rtl9300_sds_field_r: l = end_bit - start_bit - 1; if l ≥ 32 return the
whole register, else (value >> start_bit) & (BIT(l) - 1). -/
def rtl9300_sds_field_r (σ : SdsRegFile) (sds page reg e s : Nat) : Nat :=
  let l : Int := (e : Int) - (s : Int) - 1
  let v := sdsRegRead σ sds page reg
  if 32 ≤ l then v else (v >>> s) &&& (2 ^ l.toNat - 1)

/-! ## Polling lock: disable_polling / resume_polling -/

/-- The four SoC families dispatched on throughout the driver
(soc_info.family values RTL8380_FAMILY_ID .. RTL9310_FAMILY_ID). -/
inductive SocFamily where
  | rtl8380
  | rtl8390
  | rtl9300
  | rtl9310
deriving DecidableEq, Repr

/-- The switch register file: MMIO address → stored value. -/
abbrev SwState : Type := Nat → Nat

/-- Point update of the switch register file. -/
def swUpd (σ : SwState) (a v : Nat) : SwState :=
  fun x => if x = a then v else σ x

/-- sw_r32: a 32-bit MMIO read. -/
def sw_r32 (σ : SwState) (a : Nat) : Nat := σ a % 4294967296

/-- sw_w32: a 32-bit MMIO write (u32 argument, hence mod 2^32). -/
def sw_w32 (σ : SwState) (v a : Nat) : SwState := swUpd σ a (v % 4294967296)

/-- sw_w32_mask(clear, set, reg): sw_w32((sw_r32(reg) & ~clear) | set, reg),
all in u32 arithmetic. -/
def sw_w32_mask (σ : SwState) (clear set a : Nat) : SwState :=
  sw_w32 σ ((sw_r32 σ a &&& (4294967295 ^^^ (clear % 4294967296))) ||| set) a

/-- disable_polling: per family, save the polling-control register(s) and
clear the bit of the given port.  pollBase stands for the family's polling
control register address (RTL838X_SMI_POLL_CTRL, RTL839X_SMI_PORT_POLLING_CTRL,
or RTL930X_SMI_POLL_CTRL; the numeric constants live in a header outside
this file, so the address is a parameter).  On the RTL8390 the saved state
is (hi << 32) | lo over the two 32-bit halves at pollBase+4 and pollBase.
On the RTL9310 the function only warns; its C local saved_state stays
uninitialized, modelled by the garbage parameter.  Returns (saved state,
new register file). -/
def disable_polling (fam : SocFamily) (pollBase port : Nat) (garbage : Nat)
    (σ : SwState) : Nat × SwState :=
  match fam with
  | SocFamily.rtl8380 =>
    (sw_r32 σ pollBase, sw_w32_mask σ (1 <<< port) 0 pollBase)
  | SocFamily.rtl8390 =>
    (((sw_r32 σ (pollBase + 4)) <<< 32) ||| sw_r32 σ pollBase,
     sw_w32_mask σ (1 <<< (port % 32)) 0 (pollBase + ((port >>> 5) <<< 2)))
  | SocFamily.rtl9300 =>
    (sw_r32 σ pollBase, sw_w32_mask σ (1 <<< port) 0 pollBase)
  | SocFamily.rtl9310 => (garbage, σ)

/-- resume_polling: write the saved state back (both 32-bit halves on the
RTL8390); a warning-only no-op on the RTL9310. -/
def resume_polling (fam : SocFamily) (pollBase saved : Nat) (σ : SwState) : SwState :=
  match fam with
  | SocFamily.rtl8380 => sw_w32 σ saved pollBase
  | SocFamily.rtl8390 => sw_w32 (sw_w32 σ (saved >>> 32) (pollBase + 4)) saved pollBase
  | SocFamily.rtl9300 => sw_w32 σ saved pollBase
  | SocFamily.rtl9310 => σ

/-! ## Firmware image validation: rtl838x_request_fw -/

/-- One step of the little-endian-polynomial CRC32 used by the kernel
crc32() (polynomial 0xEDB88320). -/
def crc32_bit (c : Nat) : Nat :=
  if c % 2 = 1 then (c >>> 1) ^^^ 0xEDB88320 else c >>> 1

/-- Fold one byte into the running CRC32. -/
def crc32_byte (c b : Nat) : Nat := crc32_bit^[8] (c ^^^ (b % 256))

/-- crc32(seed, data, len): the kernel CRC32 over a byte sequence. -/
def crc32 (seed : Nat) (data : List Nat) : Nat :=
  data.foldl crc32_byte (seed % 4294967296)

/-- Big-endian (MIPS) read of a u32 field at a byte offset; absent bytes
read as 0 (the validator only reads inside the length-checked header). -/
def readBE32 (b : List Nat) (off : Nat) : Nat :=
  (b.getD off 0 % 256) * 16777216 + (b.getD (off + 1) 0 % 256) * 65536 +
    (b.getD (off + 2) 0 % 256) * 256 + b.getD (off + 3) 0 % 256

/-- Big-endian write of a u32 field at a byte offset. -/
def writeBE32 (b : List Nat) (off v : Nat) : List Nat :=
  (((b.set off (v / 16777216 % 256)).set (off + 1) (v / 65536 % 256)).set
      (off + 2) (v / 256 % 256)).set (off + 3) (v % 256)

/-- Modelled from the spec: the layout of struct fw_header, which is
declared in rtl83xx-phy.h (not part of this tree).  Per spec §3/§6 the
header is { magic: u32, checksum: u32, target-chip-id: u32 } followed by a
fixed-size region table; the code indexes parts[8] and parts[9], so the
table has 10 u32 offset entries, giving sizeof(struct fw_header) = 52. -/
def FW_HDR_SIZE : Nat := 52

/-- Byte offset of the header magic field (first header field). -/
def FW_MAGIC_OFF : Nat := 0

/-- Modelled from the spec: byte offset of the header checksum field
(second header field per spec §3). -/
def FW_CHECKSUM_OFF : Nat := 4

/-- rtl838x_request_fw, validation part: reject if the image is smaller
than the header; reject on magic ≠ 0x83808380; save the checksum field,
zero it in place, compare ~crc32(0xFFFFFFFF, data, size) with the saved
field; restore the field and return the header on success.  The result is
(validation outcome, firmware bytes after the call) — the byte state is
returned because the check mutates the buffer in place. -/
def rtl838x_request_fw (bytes : List Nat) : Option Unit × List Nat :=
  if bytes.length < FW_HDR_SIZE then (none, bytes)
  else if readBE32 bytes FW_MAGIC_OFF ≠ 0x83808380 then (none, bytes)
  else
    let checksum := readBE32 bytes FW_CHECKSUM_OFF
    let zeroed := writeBE32 bytes FW_CHECKSUM_OFF 0
    let my_checksum := 4294967295 ^^^ crc32 4294967295 zeroed
    if checksum ≠ my_checksum then (none, zeroed)
    else (some (), writeBE32 zeroed FW_CHECKSUM_OFF checksum)

/-! ## Patch sequencer: write-list replay and the broadcast bracket -/

/-- One event of the per-port PHY transport: read_phy / write_phy calls
and msleep/mdelay pauses. -/
inductive PhyEv where
  | rd (port page reg : Nat)
  | wr (port page reg v : Nat)
  | sleep (ms : Nat)
deriving DecidableEq, Repr

/-- Replay of a (register, value) pair list on one port:
while (arr[i*2]) { write_phy(port, 0xfff, arr[i*2], arr[i*2+1]); i++; }.
Traversal stops at the first entry whose register field is 0, without
applying it. -/
def applyPairList (port : Nat) : List (Nat × Nat) → List PhyEv
  | [] => []
  | (r, v) :: t =>
    if r = 0 then [] else PhyEv.wr port 0xfff r v :: applyPairList port t

/-- Replay of a (port-offset, register, value) triple list:
while (arr[i*3] && arr[i*3+1]) { write_phy(mac + arr[i*3], 0xfff,
arr[i*3+1], arr[i*3+2]); i++; }.  Traversal stops at the first entry whose
offset or register field is 0, without applying it. -/
def applyTripleList (mac : Nat) : List (Nat × Nat × Nat) → List PhyEv
  | [] => []
  | (o, r, v) :: t =>
    if o = 0 ∨ r = 0 then []
    else PhyEv.wr (mac + o) 0xfff r v :: applyTripleList mac t

/-- The broadcast patching section of rtl8380_configure_ext_rtl8218b
(source lines 905-936), as the trace of PHY accesses it emits: enable the
broadcast ID method and set broadcast ID 0xff00+mac, detect the IPD
revision, replay the shared per-port write-list, then disable broadcast by
writing 0x00+mac to the same register. -/
def rtl8380_bcast_patch_trace (mac : Nat) (perport : List (Nat × Nat)) :
    List PhyEv :=
  [PhyEv.wr mac 0xfff 0x1f 0x0000, PhyEv.wr mac 0xfff 0x1d 0x0008,
   PhyEv.wr mac 0xfff 0x1f 0x0266, PhyEv.wr mac 0xfff 0x16 (0xff00 + mac),
   PhyEv.wr mac 0xfff 0x1f 0x0000, PhyEv.wr mac 0xfff 0x1d 0x0000,
   PhyEv.sleep 1,
   PhyEv.wr mac 0xfff 30 8, PhyEv.wr mac 0x26e 17 0xb,
   PhyEv.wr mac 0x26e 16 0x2, PhyEv.sleep 1, PhyEv.rd mac 0x26e 19,
   PhyEv.wr mac 0 30 0]
  ++ applyPairList mac perport
  ++ [PhyEv.wr mac 0xfff 0x1f 0x0000, PhyEv.wr mac 0xfff 0x1d 0x0008,
      PhyEv.wr mac 0xfff 0x1f 0x0266, PhyEv.wr mac 0xfff 0x16 (0x00 + mac),
      PhyEv.wr mac 0xfff 0x1f 0x0000, PhyEv.wr mac 0xfff 0x1d 0x0000,
      PhyEv.sleep 1]

/-- Recognises a write to the broadcast ID register (register 0x16 within
the page selected through register 0x1f = 0x0266). -/
def isBcastIdWrite : PhyEv → Bool
  | PhyEv.wr _ _ r _ => r == 0x16
  | _ => false

/-! ## RTL839x shadow-register SerDes read -/

/-- rtl839x_read_sds_phy: on the 2048-bit shadow register family.  socId
is soc_info.id; xsgBase stands for RTL839X_SDS12_13_XSG0 (numeric value in
a header outside this tree).  For chip 0x8393 the PHY identity registers 2
and 3 are simulated without touching hardware; all other registers are
fetched from the shadow register, two 16-bit PHY registers per 32-bit
word.  Returns (result, list of MMIO addresses read). -/
def rtl839x_read_sds_phy (socId xsgBase : Nat) (σ : SwState)
    (phy_addr phy_reg : Nat) : Nat × List Nat :=
  let offset := if phy_addr = 49 then 0x100 else 0
  if socId = 0x8393 ∧ phy_reg = 2 then (0x1c, [])
  else if socId = 0x8393 ∧ phy_reg = 3 then (0x8393, [])
  else
    let reg := (phy_reg <<< 1) &&& 0xfc
    let addr := xsgBase + offset + 0x80 + reg
    let val := sw_r32 σ addr
    if phy_reg % 2 = 1 then ((val >>> 16) &&& 0xffff, [addr])
    else (val &&& 0xffff, [addr])

/-! ## MMD (extended register) dispatch -/

/-- The four per-family MMD transports
(rtl838x/rtl839x/rtl930x/rtl931x_read/write_mmd_phy). -/
inductive MmdTransport where
  | t838x
  | t839x
  | t930x
  | t931x
deriving DecidableEq, Repr

/-- read_mmd_phy: dispatch a generic MMD read on soc_info.family.  The
result records which per-family transport is invoked and with which
arguments. -/
def read_mmd_phy (fam : SocFamily) (port devnum regnum : Nat) :
    MmdTransport × Nat × Nat × Nat :=
  match fam with
  | SocFamily.rtl8380 => (MmdTransport.t838x, port, devnum, regnum)
  | SocFamily.rtl8390 => (MmdTransport.t839x, port, devnum, regnum)
  | SocFamily.rtl9300 => (MmdTransport.t930x, port, devnum, regnum)
  | SocFamily.rtl9310 => (MmdTransport.t931x, port, devnum, regnum)

/-- write_mmd_phy: dispatch a generic MMD write on soc_info.family. -/
def write_mmd_phy (fam : SocFamily) (port devnum reg v : Nat) :
    MmdTransport × Nat × Nat × Nat × Nat :=
  match fam with
  | SocFamily.rtl8380 => (MmdTransport.t838x, port, devnum, reg, v)
  | SocFamily.rtl8390 => (MmdTransport.t839x, port, devnum, reg, v)
  | SocFamily.rtl9300 => (MmdTransport.t930x, port, devnum, reg, v)
  | SocFamily.rtl9310 => (MmdTransport.t931x, port, devnum, reg, v)

/-- rtl8218b_read_mmd: goes through the read_mmd_phy family dispatcher. -/
def rtl8218b_read_mmd (fam : SocFamily) (addr devnum regnum : Nat) :
    MmdTransport × Nat × Nat × Nat :=
  read_mmd_phy fam addr devnum regnum

/-- rtl8218b_write_mmd: calls rtl838x_write_mmd_phy directly, bypassing
the write_mmd_phy family dispatcher (the fam argument is the ambient
soc_info.family, which the C function never consults). -/
def rtl8218b_write_mmd (_fam : SocFamily) (addr devnum regnum v : Nat) :
    MmdTransport × Nat × Nat × Nat × Nat :=
  (MmdTransport.t838x, addr, devnum, regnum, v)

/-! ## General bit-manipulation lemmas -/

theorem shiftLeft_lor_distrib (x y n : Nat) : (x ||| y) <<< n = x <<< n ||| y <<< n :=
  Nat.eq_of_testBit_eq fun i => by
    simp [Nat.testBit_shiftLeft, Nat.testBit_lor, Bool.and_or_distrib_left]

theorem lor_shiftRight_cancel (x y k : Nat) (hy : y < 2 ^ k) :
    ((x <<< k) ||| y) >>> k = x :=
  Nat.eq_of_testBit_eq fun i => by
    have hyb : y.testBit (k + i) = false :=
      Nat.testBit_lt_two_pow
        (lt_of_lt_of_le hy (Nat.pow_le_pow_right (by norm_num) (Nat.le_add_right _ _)))
    have hk : k ≤ k + i := Nat.le_add_right _ _
    have hs : k + i - k = i := by omega
    simp [Nat.testBit_shiftRight, Nat.testBit_lor, Nat.testBit_shiftLeft, hyb, hk, hs]

theorem lor_mod_cancel (x y k : Nat) (hy : y < 2 ^ k) :
    ((x <<< k) ||| y) % 2 ^ k = y :=
  Nat.eq_of_testBit_eq fun i => by
    simp only [Nat.testBit_mod_two_pow, Nat.testBit_lor, Nat.testBit_shiftLeft, ge_iff_le]
    by_cases hik : i < k
    · have : ¬ k ≤ i := by omega
      simp [hik, this]
    · have hyb : y.testBit i = false :=
        Nat.testBit_lt_two_pow
          (lt_of_lt_of_le hy (Nat.pow_le_pow_right (by norm_num) (by omega)))
      simp [hik, hyb]

/-! ## Polling loop lemmas -/

/-- The event trace of n busy poll iterations: n reads of the command
register, each followed by the 1 ms delay. -/
def pollTimeoutTrace (n : Nat) : List SdsEv :=
  List.flatten (List.replicate n [SdsEv.rd SdsReg.cmd, SdsEv.sleep 1])

theorem sdsPollAux_timeout (env : Nat → Nat) (k0 : Nat) :
    ∀ (fuel i : Nat), (∀ j, j < fuel → env (k0 + i + j) % 2 = 1) →
      sdsPollAux env k0 i fuel = (i + fuel, pollTimeoutTrace fuel) := by
  intro fuel
  induction fuel with
  | zero => intro i _; simp [sdsPollAux, pollTimeoutTrace]
  | succ f ih =>
    intro i h
    have h0 : env (k0 + i) % 2 = 1 := by simpa using h 0 (by omega)
    have hrec := ih (i + 1) (fun j hj => by
      have := h (j + 1) (by omega)
      rwa [show k0 + i + (j + 1) = k0 + (i + 1) + j by omega] at this)
    simp only [sdsPollAux, h0]
    rw [hrec]
    simp [pollTimeoutTrace, List.replicate_succ]
    omega

theorem sdsPollAux_break (env : Nat → Nat) (k0 : Nat) :
    ∀ (i0 fuel i : Nat), i0 < fuel →
      env (k0 + i + i0) % 2 = 0 → (∀ j, j < i0 → env (k0 + i + j) % 2 = 1) →
      sdsPollAux env k0 i fuel = (i + i0, pollTimeoutTrace i0 ++ [SdsEv.rd SdsReg.cmd]) := by
  intro i0
  induction i0 with
  | zero =>
    intro fuel i hf hc _
    match fuel, hf with
    | f + 1, _ =>
      have hc0 : env (k0 + i) % 2 = 0 := by simpa using hc
      simp [sdsPollAux, hc0, pollTimeoutTrace]
  | succ m ih =>
    intro fuel i hf hc hb
    match fuel, hf with
    | f + 1, _ =>
      have h0 : env (k0 + i) % 2 = 1 := by simpa using hb 0 (by omega)
      have hrec := ih f (i + 1) (by omega)
        (by rwa [show k0 + (i + 1) + m = k0 + i + (m + 1) by omega])
        (fun j hj => by
          have := hb (j + 1) (by omega)
          rwa [show k0 + i + (j + 1) = k0 + (i + 1) + j by omega] at this)
      simp only [sdsPollAux, h0]
      rw [hrec]
      simp [pollTimeoutTrace, List.replicate_succ]
      omega

theorem mem_pollTimeoutTrace : ∀ (n : Nat) (e : SdsEv), e ∈ pollTimeoutTrace n →
    e = SdsEv.rd SdsReg.cmd ∨ e = SdsEv.sleep 1 := by
  intro n
  induction n with
  | zero => intro e he; simp [pollTimeoutTrace] at he
  | succ m ih =>
    intro e he
    simp only [pollTimeoutTrace, List.replicate_succ, List.flatten_cons, List.mem_append,
      List.mem_cons, List.not_mem_nil, or_false] at he
    rcases he with h | h
    · tauto
    · exact ih e h

/-- C1.  The code bug evaluated at a concrete failing input: with the
hardware idle (busy bit clear), rtl930x_write_sds_phy 1 2 3 0x1234 returns
0 (success), yet its event trace contains no write to the command
register at all — the command word with the start bit set, which the
claim requires, is never issued (the C function computes cmd but never
stores it).  The RTL9310 variant, in contrast, does issue it. -/
theorem c1_rtl930x_write_issues_no_command :
    rtl930x_write_sds_phy 1 2 3 0x1234 idleEnv =
      (0, [SdsEv.wr SdsReg.data 0x1234, SdsEv.rd SdsReg.cmd])
    ∧ ((rtl930x_write_sds_phy 1 2 3 0x1234 idleEnv).2.all
        (fun e => !isCmdWrite e)) = true
    ∧ ((rtl931x_write_sds_phy 1 2 3 0x1234 idleEnv).2.any
        (fun e => isStartCmdWrite e)) = true := by
  decide

/-- C2.  Indirect SerDes reads (both variants): if the busy bit stays set
for all 100 poll iterations, the call returns -EIO and the trace is
exactly the command-issue write followed by 100 (read, 1 ms delay) pairs —
in particular the data register is never accessed.  If the busy bit
clears at some iteration before the 100th, the result is the data
register value masked to 16 bits. -/
theorem c2_indirect_read_poll_bound (a p r dataV : Nat) (env : Nat → Nat) :
    ((∀ i, i < 100 → env i % 2 = 1) →
      rtl930x_read_sds_phy a p r env dataV =
        (-5, SdsEv.wr SdsReg.cmd ((a <<< 2 ||| p <<< 7 ||| r <<< 13 ||| 1) % 4294967296) ::
          pollTimeoutTrace 100)
      ∧ rtl931x_read_sds_phy a p r env dataV =
        (-5, SdsEv.wr SdsReg.cmd ((a <<< 2 ||| p <<< 7 ||| r <<< 13 ||| 1) % 4294967296) ::
          pollTimeoutTrace 100)
      ∧ SdsEv.rd SdsReg.data ∉ (rtl930x_read_sds_phy a p r env dataV).2
      ∧ SdsEv.rd SdsReg.data ∉ (rtl931x_read_sds_phy a p r env dataV).2)
    ∧ (∀ i0, i0 < 100 → env i0 % 2 = 0 → (∀ j, j < i0 → env j % 2 = 1) →
      (rtl930x_read_sds_phy a p r env dataV).1 = ((dataV &&& 0xffff : Nat) : Int)
      ∧ (rtl931x_read_sds_phy a p r env dataV).1 = ((dataV &&& 0xffff : Nat) : Int)) := by
  constructor
  · intro h
    have hp := sdsPollAux_timeout env 0 100 0 (fun j hj => by simpa using h j hj)
    have h930 : rtl930x_read_sds_phy a p r env dataV =
        (-5, SdsEv.wr SdsReg.cmd ((a <<< 2 ||| p <<< 7 ||| r <<< 13 ||| 1) % 4294967296) ::
          pollTimeoutTrace 100) := by
      simp [rtl930x_read_sds_phy, hp]
    have h931 : rtl931x_read_sds_phy a p r env dataV =
        (-5, SdsEv.wr SdsReg.cmd ((a <<< 2 ||| p <<< 7 ||| r <<< 13 ||| 1) % 4294967296) ::
          pollTimeoutTrace 100) := by
      simp [rtl931x_read_sds_phy, hp]
    refine ⟨h930, h931, ?_, ?_⟩
    · rw [h930]
      intro hmem
      rcases List.mem_cons.mp hmem with h1 | h1
      · cases h1
      · rcases mem_pollTimeoutTrace 100 _ h1 with h2 | h2 <;> cases h2
    · rw [h931]
      intro hmem
      rcases List.mem_cons.mp hmem with h1 | h1
      · cases h1
      · rcases mem_pollTimeoutTrace 100 _ h1 with h2 | h2 <;> cases h2
  · intro i0 hlt hc hb
    have hp := sdsPollAux_break env 0 i0 100 0 hlt (by simpa using hc)
      (fun j hj => by simpa using hb j hj)
    have hne : ¬ 100 ≤ i0 := by omega
    constructor
    · simp [rtl930x_read_sds_phy, hp, hne]
    · simp [rtl931x_read_sds_phy, hp, hne]

/-- Witness for C2 at concrete inputs: an always-busy environment times
out with -EIO, and an immediately-idle environment returns the 16-bit
data value 0xabcd. -/
theorem c2_indirect_read_poll_bound_witness :
    (rtl930x_read_sds_phy 1 2 3 (fun _ => 1) 0xabcd).1 = -5
    ∧ (rtl930x_read_sds_phy 1 2 3 idleEnv 0xabcd).1 = (0xabcd : Int) := by
  constructor
  · have h := (c2_indirect_read_poll_bound 1 2 3 0xabcd (fun _ => 1)).1
      (fun i _ => rfl)
    rw [h.1]
  · have h := (c2_indirect_read_poll_bound 1 2 3 0xabcd idleEnv).2 0 (by omega)
      rfl (fun j hj => absurd hj (by omega))
    rw [h.1]
    decide

/-! ## Firmware byte-level lemmas -/

theorem readBE32_extract (b : List Nat) (off : Nat) :
    readBE32 b off / 16777216 % 256 = b.getD off 0 % 256
    ∧ readBE32 b off / 65536 % 256 = b.getD (off + 1) 0 % 256
    ∧ readBE32 b off / 256 % 256 = b.getD (off + 2) 0 % 256
    ∧ readBE32 b off % 256 = b.getD (off + 3) 0 % 256 := by
  rw [readBE32]
  refine ⟨by omega, by omega, by omega, by omega⟩

theorem writeBE32_restore (b : List Nat) (off : Nat) (hb : ∀ x ∈ b, x < 256) :
    writeBE32 (writeBE32 b off 0) off (readBE32 b off) = b := by
  have hgetD : ∀ (n : Nat) (x : Nat), b[n]? = some x → b.getD n 0 = x := by
    intro n x h
    rw [List.getD_eq_getElem?_getD, h]
    rfl
  have hmem : ∀ (n : Nat) (x : Nat), b[n]? = some x → x < 256 := by
    intro n x h
    obtain ⟨hlt, rfl⟩ := List.getElem?_eq_some.mp h
    exact hb _ (List.getElem_mem _)
  apply List.ext_getElem?
  intro n
  by_cases h0 : n = off
  · subst h0
    rw [writeBE32, writeBE32]
    rw [List.getElem?_set_ne (by omega), List.getElem?_set_ne (by omega),
        List.getElem?_set_ne (by omega), List.getElem?_set_self',
        List.getElem?_set_ne (by omega), List.getElem?_set_ne (by omega),
        List.getElem?_set_ne (by omega), List.getElem?_set_self']
    cases hx : b[n]? with
    | none => rfl
    | some x =>
      have h1 := (readBE32_extract b n).1
      rw [hgetD n x hx, Nat.mod_eq_of_lt (hmem n x hx)] at h1
      simp [hx, h1]
  · by_cases h1 : n = off + 1
    · subst h1
      rw [writeBE32, writeBE32]
      rw [List.getElem?_set_ne (by omega), List.getElem?_set_ne (by omega),
          List.getElem?_set_self', List.getElem?_set_ne (by omega),
          List.getElem?_set_ne (by omega), List.getElem?_set_ne (by omega),
          List.getElem?_set_self', List.getElem?_set_ne (by omega)]
      cases hx : b[off + 1]? with
      | none => rfl
      | some x =>
        have h2 := (readBE32_extract b off).2.1
        rw [hgetD _ x hx, Nat.mod_eq_of_lt (hmem _ x hx)] at h2
        simp [hx, h2]
    · by_cases h2 : n = off + 2
      · subst h2
        rw [writeBE32, writeBE32]
        rw [List.getElem?_set_ne (by omega), List.getElem?_set_self',
            List.getElem?_set_ne (by omega), List.getElem?_set_ne (by omega),
            List.getElem?_set_ne (by omega), List.getElem?_set_self',
            List.getElem?_set_ne (by omega), List.getElem?_set_ne (by omega)]
        cases hx : b[off + 2]? with
        | none => rfl
        | some x =>
          have h3 := (readBE32_extract b off).2.2.1
          rw [hgetD _ x hx, Nat.mod_eq_of_lt (hmem _ x hx)] at h3
          simp [hx, h3]
      · by_cases h3 : n = off + 3
        · subst h3
          rw [writeBE32, writeBE32]
          rw [List.getElem?_set_self', List.getElem?_set_ne (by omega),
              List.getElem?_set_ne (by omega), List.getElem?_set_ne (by omega),
              List.getElem?_set_self', List.getElem?_set_ne (by omega),
              List.getElem?_set_ne (by omega), List.getElem?_set_ne (by omega)]
          cases hx : b[off + 3]? with
          | none => rfl
          | some x =>
            have h4 := (readBE32_extract b off).2.2.2
            rw [hgetD _ x hx, Nat.mod_eq_of_lt (hmem _ x hx)] at h4
            simp [hx, h4]
        · rw [writeBE32, writeBE32]
          rw [List.getElem?_set_ne (by omega), List.getElem?_set_ne (by omega),
              List.getElem?_set_ne (by omega), List.getElem?_set_ne (by omega),
              List.getElem?_set_ne (by omega), List.getElem?_set_ne (by omega),
              List.getElem?_set_ne (by omega), List.getElem?_set_ne (by omega)]

/-- A 52-byte image with valid magic and correct complemented CRC32
checksum (computed over the image with the checksum field zeroed). -/
def fwValidImage : List Nat :=
  writeBE32 ([0x83, 0x80, 0x83, 0x80] ++ List.replicate 48 0) 4 2996285443

/-- A 52-byte image with valid magic and stored checksum 1, which does
not match the recomputed checksum. -/
def fwBadChecksumImage : List Nat :=
  writeBE32 ([0x83, 0x80, 0x83, 0x80] ++ List.replicate 48 0) 4 1

/-- C3.  Firmware validation: an image shorter than the header always
fails; otherwise validation succeeds exactly when the magic is 0x83808380
and the stored checksum field equals the complemented CRC32 of the image
with the checksum field zeroed; on any disagreement no image is
produced. -/
theorem c3_firmware_parse_iff (bytes : List Nat) :
    (bytes.length < FW_HDR_SIZE → (rtl838x_request_fw bytes).1 = none)
    ∧ ((rtl838x_request_fw bytes).1.isSome ↔
        FW_HDR_SIZE ≤ bytes.length
        ∧ readBE32 bytes FW_MAGIC_OFF = 0x83808380
        ∧ readBE32 bytes FW_CHECKSUM_OFF =
            4294967295 ^^^ crc32 4294967295 (writeBE32 bytes FW_CHECKSUM_OFF 0)) := by
  constructor
  · intro h
    simp [rtl838x_request_fw, h]
  · constructor
    · intro hsome
      by_cases hlen : bytes.length < FW_HDR_SIZE
      · simp [rtl838x_request_fw, hlen] at hsome
      · by_cases hmag : readBE32 bytes FW_MAGIC_OFF = 0x83808380
        · by_cases hchk : readBE32 bytes FW_CHECKSUM_OFF =
              4294967295 ^^^ crc32 4294967295 (writeBE32 bytes FW_CHECKSUM_OFF 0)
          · exact ⟨by omega, hmag, hchk⟩
          · simp [rtl838x_request_fw, hlen, hmag, hchk] at hsome
        · simp [rtl838x_request_fw, hlen, hmag] at hsome
    · rintro ⟨hlen, hmag, hchk⟩
      have hlen2 : ¬ bytes.length < FW_HDR_SIZE := by omega
      simp [rtl838x_request_fw, hlen2, hmag, hchk]

set_option maxRecDepth 100000 in
/-- Witness for C3: the concrete correctly-checksummed image validates,
and a 51-byte image (one byte short of the header) is rejected. -/
theorem c3_firmware_parse_iff_witness :
    (rtl838x_request_fw fwValidImage).1.isSome = true
    ∧ (rtl838x_request_fw (List.replicate 51 0)).1 = none := by
  constructor
  · exact (c3_firmware_parse_iff fwValidImage).2.mpr (by decide)
  · exact (c3_firmware_parse_iff (List.replicate 51 0)).1 (by decide)

set_option maxRecDepth 100000 in
/-- C6 counterexample: on the checksum-mismatch path the checksum field
is NOT restored — for the concrete image with stored checksum 1 the
validator fails and leaves the buffer with the checksum field zeroed, so
the bytes after the call differ from the bytes before it. -/
theorem c6_checksum_not_restored_counterexample :
    (rtl838x_request_fw fwBadChecksumImage).1 = none
    ∧ (rtl838x_request_fw fwBadChecksumImage).2 ≠ fwBadChecksumImage := by
  decide

/-- C6 amended: the buffer is returned unmodified on the success path
(the zeroed checksum field is written back) and on the too-small and
magic-mismatch paths (which never touch it); on the checksum-mismatch
failure path the buffer is left with the checksum field zeroed, not
restored. -/
theorem c6_checksum_restore_amended (bytes : List Nat)
    (hb : ∀ x ∈ bytes, x < 256) :
    ((rtl838x_request_fw bytes).1.isSome → (rtl838x_request_fw bytes).2 = bytes)
    ∧ (bytes.length < FW_HDR_SIZE → (rtl838x_request_fw bytes).2 = bytes)
    ∧ (readBE32 bytes FW_MAGIC_OFF ≠ 0x83808380 → (rtl838x_request_fw bytes).2 = bytes)
    ∧ (FW_HDR_SIZE ≤ bytes.length →
        readBE32 bytes FW_MAGIC_OFF = 0x83808380 →
        readBE32 bytes FW_CHECKSUM_OFF ≠
          4294967295 ^^^ crc32 4294967295 (writeBE32 bytes FW_CHECKSUM_OFF 0) →
        (rtl838x_request_fw bytes).2 = writeBE32 bytes FW_CHECKSUM_OFF 0) := by
  refine ⟨?_, ?_, ?_, ?_⟩
  · intro hsome
    have hiff := (c3_firmware_parse_iff bytes).2.mp hsome
    obtain ⟨hlen, hmag, hchk⟩ := hiff
    have hlen2 : ¬ bytes.length < FW_HDR_SIZE := by omega
    simp [rtl838x_request_fw, hlen2, hmag, hchk]
    rw [← hchk]
    exact writeBE32_restore bytes FW_CHECKSUM_OFF hb
  · intro h
    simp [rtl838x_request_fw, h]
  · intro h
    by_cases hlen : bytes.length < FW_HDR_SIZE
    · simp [rtl838x_request_fw, hlen]
    · simp [rtl838x_request_fw, hlen, h]
  · intro hlen hmag hchk
    have hlen2 : ¬ bytes.length < FW_HDR_SIZE := by omega
    simp [rtl838x_request_fw, hlen2, hmag, hchk]

set_option maxRecDepth 100000 in
/-- Witness for C6 amended: applied to the valid concrete image, whose
validation succeeds, the buffer is returned byte-for-byte unchanged. -/
theorem c6_checksum_restore_amended_witness :
    (∀ x ∈ fwValidImage, x < 256)
    ∧ (rtl838x_request_fw fwValidImage).2 = fwValidImage := by
  refine ⟨by decide, ?_⟩
  exact (c6_checksum_restore_amended fwValidImage (by decide)).1 (by decide)

/-- C4 counterexample: with end_bit = 2, start_bit = 0 (field width
end-start = 2, well inside the register), writing value 3 and reading the
field back yields 1, not 3 & (2^2 - 1) = 3: the helpers use mask width
end_bit - start_bit - 1, one less than the claimed field width. -/
theorem c4_field_width_counterexample :
    rtl9300_sds_field_r (rtl9300_sds_field_w (fun _ _ _ => 0) 0 0 0 2 0 3) 0 0 0 2 0 = 1
    ∧ (0 : Nat) < 2 ∧ (2 : Nat) - 0 < 32
    ∧ 3 &&& (2 ^ (2 - 0) - 1) = 3
    ∧ (1 : Nat) ≠ 3 := by decide

/-- C4 amended: for end_bit > start_bit with end_bit - start_bit < 32 and
the (code's) field fitting in the 16-bit register, fieldWrite then
fieldRead of the same locator returns the written value masked to
end_bit - start_bit - 1 bits (the mask width the code actually uses, one
less than the claimed end - start); register bits outside that narrower
field, and all other registers, are unchanged. -/
theorem c4_field_rw_amended (σ : SdsRegFile) (sds page reg e s v : Nat)
    (hs : s < e) (_hw : e - s < 32) (hσ : σ sds page reg < 65536)
    (hfit : s + (e - s - 1) ≤ 16) :
    rtl9300_sds_field_r (rtl9300_sds_field_w σ sds page reg e s v) sds page reg e s
      = v &&& (2 ^ (e - s - 1) - 1)
    ∧ (∀ p, p < s ∨ s + (e - s - 1) ≤ p →
        (rtl9300_sds_field_w σ sds page reg e s v sds page reg).testBit p
          = (σ sds page reg).testBit p)
    ∧ (∀ s2 p2 r2, ¬(s2 = sds ∧ p2 = page ∧ r2 = reg) →
        rtl9300_sds_field_w σ sds page reg e s v s2 p2 r2 = σ s2 p2 r2) := by
  have hlt32 : ((e : Int) - (s : Int) - 1) < 32 := by omega
  have hnot32 : ¬ (32 ≤ (e : Int) - (s : Int) - 1) := by omega
  have htoNat : ((e : Int) - (s : Int) - 1).toNat = e - s - 1 := by omega
  have hstored : rtl9300_sds_field_w σ sds page reg e s v sds page reg
      = (((σ sds page reg &&& 65535)
            &&& (4294967295 ^^^ (((2 ^ (e - s - 1) - 1) <<< s) % 4294967296)))
          ||| (((v &&& (2 ^ (e - s - 1) - 1)) <<< s) % 4294967296)) % 65536 := by
    simp [rtl9300_sds_field_w, sdsRegWrite, sdsRegRead, hlt32, htoNat]
  have h16 : (65535 : Nat) = 2 ^ 16 - 1 := by norm_num
  have h16p : (65536 : Nat) = 2 ^ 16 := by norm_num
  have h32 : (4294967295 : Nat) = 2 ^ 32 - 1 := by norm_num
  have h32p : (4294967296 : Nat) = 2 ^ 32 := by norm_num
  refine ⟨?_, ?_, ?_⟩
  · have hr : rtl9300_sds_field_r (rtl9300_sds_field_w σ sds page reg e s v) sds page reg e s
        = ((rtl9300_sds_field_w σ sds page reg e s v sds page reg &&& 65535) >>> s)
            &&& (2 ^ (e - s - 1) - 1) := by
      simp [rtl9300_sds_field_r, sdsRegRead, hnot32, htoNat]
    rw [hr, hstored, h16, h16p, h32, h32p]
    apply Nat.eq_of_testBit_eq
    intro i
    simp only [Nat.testBit_land, Nat.testBit_lor, Nat.testBit_xor, Nat.testBit_shiftRight,
      Nat.testBit_mod_two_pow, Nat.testBit_two_pow_sub_one, Nat.testBit_shiftLeft, ge_iff_le]
    by_cases hiL : i < e - s - 1
    · have h1 : s + i < 16 := by omega
      have h2 : s + i < 32 := by omega
      have h3 : s ≤ s + i := by omega
      have h4 : s + i - s = i := by omega
      simp [hiL, h1, h2, h3, h4]
    · simp [hiL]
  · intro p hp
    rw [hstored, h16, h16p, h32, h32p]
    by_cases hp16 : p < 16
    · apply Eq.trans (b := (σ sds page reg).testBit p)
      · simp only [Nat.testBit_land, Nat.testBit_lor, Nat.testBit_xor, Nat.testBit_shiftRight,
          Nat.testBit_mod_two_pow, Nat.testBit_two_pow_sub_one, Nat.testBit_shiftLeft,
          ge_iff_le]
        rcases hp with hlt | hge
        · have h1 : ¬ s ≤ p := by omega
          have h2 : p < 32 := by omega
          simp [hp16, h1, h2]
        · have h1 : s ≤ p := by omega
          have h2 : ¬ (p - s < e - s - 1) := by omega
          have h3 : p < 32 := by omega
          simp [hp16, h1, h2, h3]
      · rfl
    · have hR : (σ sds page reg).testBit p = false :=
        Nat.testBit_lt_two_pow
          (lt_of_lt_of_le hσ (by
            calc (65536 : Nat) = 2 ^ 16 := by norm_num
              _ ≤ 2 ^ p := Nat.pow_le_pow_right (by norm_num) (by omega)))
      rw [hR]
      simp only [Nat.testBit_mod_two_pow]
      simp [show ¬ p < 16 from hp16]
  · intro s2 p2 r2 hne
    simp [rtl9300_sds_field_w, sdsRegWrite, hne]

/-- Witness for C4 amended at a concrete locator (end 14, start 2,
register content 0x5a5a, written value 0x7f). -/
theorem c4_field_rw_amended_witness :
    (2 : Nat) < 14 ∧ (14 : Nat) - 2 < 32 ∧ (2 : Nat) + (14 - 2 - 1) ≤ 16
    ∧ rtl9300_sds_field_r (rtl9300_sds_field_w (fun _ _ _ => 0x5a5a) 0 0 0 14 2 0x7f)
        0 0 0 14 2 = 0x7f &&& (2 ^ (14 - 2 - 1) - 1) :=
  ⟨by decide, by decide, by decide,
    (c4_field_rw_amended (fun _ _ _ => 0x5a5a) 0 0 0 14 2 0x7f (by decide) (by decide)
      (by decide) (by decide)).1⟩

/-- C5.  For every family, port (below 64 on the RTL8390; the polling
registers hold 32-bit values), and initial register file, disable_polling
followed by resume_polling with the returned saved state restores the
register file exactly — on the RTL8390 both 32-bit halves of the 64-bit
saved state are written back, and on the RTL9310 (where both operations
only warn) nothing is modified in the first place. -/
theorem c5_polling_disable_resume (fam : SocFamily) (base port garbage : Nat)
    (σ : SwState) (hlo : σ base < 4294967296) (hhi : σ (base + 4) < 4294967296)
    (hport : fam = SocFamily.rtl8390 → port < 64) :
    resume_polling fam base (disable_polling fam base port garbage σ).1
      (disable_polling fam base port garbage σ).2 = σ := by
  have hlo2 : σ base < 2 ^ 32 := by omega
  have hhi2 : σ (base + 4) < 2 ^ 32 := by omega
  cases fam with
  | rtl8380 =>
    funext x
    by_cases hx : x = base
    · subst hx
      simp [disable_polling, resume_polling, sw_w32, sw_r32, sw_w32_mask, swUpd,
        Nat.mod_eq_of_lt hlo, Nat.mod_mod_of_dvd]
    · simp [disable_polling, resume_polling, sw_w32, sw_r32, sw_w32_mask, swUpd, hx]
  | rtl9300 =>
    funext x
    by_cases hx : x = base
    · subst hx
      simp [disable_polling, resume_polling, sw_w32, sw_r32, sw_w32_mask, swUpd,
        Nat.mod_eq_of_lt hlo, Nat.mod_mod_of_dvd]
    · simp [disable_polling, resume_polling, sw_w32, sw_r32, sw_w32_mask, swUpd, hx]
  | rtl9310 =>
    simp [disable_polling, resume_polling]
  | rtl8390 =>
    have hp64 : port < 64 := hport rfl
    have haddr : base + ((port >>> 5) <<< 2) = base ∨
        base + ((port >>> 5) <<< 2) = base + 4 := by
      rw [Nat.shiftRight_eq_div_pow, Nat.shiftLeft_eq]
      norm_num
      omega
    have hsaved : (σ (base + 4) % 4294967296) <<< 32 ||| σ base % 4294967296
        = σ (base + 4) <<< 32 ||| σ base := by
      rw [Nat.mod_eq_of_lt hhi, Nat.mod_eq_of_lt hlo]
    have hsr : (σ (base + 4) <<< 32 ||| σ base) >>> 32 % 4294967296 = σ (base + 4) := by
      rw [lor_shiftRight_cancel _ _ 32 hlo2]
      exact Nat.mod_eq_of_lt hhi
    have hmod : (σ (base + 4) <<< 32 ||| σ base) % 4294967296 = σ base := by
      rw [show (4294967296 : Nat) = 2 ^ 32 from by norm_num]
      exact lor_mod_cancel _ _ 32 hlo2
    funext x
    by_cases hx : x = base
    · subst hx
      simp only [disable_polling, resume_polling, sw_w32, sw_r32, sw_w32_mask, swUpd,
        hsaved, hmod]
      simp
    · by_cases hx4 : x = base + 4
      · subst hx4
        simp only [disable_polling, resume_polling, sw_w32, sw_r32, sw_w32_mask, swUpd,
          hsaved, hsr]
        simp [hx]
      · rcases haddr with ha | ha
        · simp only [disable_polling, resume_polling, sw_w32, sw_r32, sw_w32_mask, swUpd,
            ha]
          simp [hx, hx4]
        · simp only [disable_polling, resume_polling, sw_w32, sw_r32, sw_w32_mask, swUpd,
            ha]
          simp [hx, hx4]

/-- Witness for C5 on the RTL8390 with base address 256, port 33 (the
upper polling register half) and the identity register file. -/
theorem c5_polling_disable_resume_witness :
    (256 : Nat) < 4294967296 ∧ (260 : Nat) < 4294967296 ∧ (33 : Nat) < 64
    ∧ resume_polling SocFamily.rtl8390 256
        (disable_polling SocFamily.rtl8390 256 33 7 (fun a => a)).1
        (disable_polling SocFamily.rtl8390 256 33 7 (fun a => a)).2 = (fun a => a) :=
  ⟨by decide, by decide, by decide,
    c5_polling_disable_resume SocFamily.rtl8390 256 33 7 (fun a => a) (by decide)
      (by decide) (fun _ => by decide)⟩

theorem applyPairList_append_sentinel (port : Nat) : ∀ (l : List (Nat × Nat)),
    (∀ x ∈ l, x.1 ≠ 0) →
    applyPairList port (l ++ [(0, 0)]) =
      l.map (fun x => PhyEv.wr port 0xfff x.1 x.2) := by
  intro l
  induction l with
  | nil => intro _; simp [applyPairList]
  | cons hd t ih =>
    intro hl
    obtain ⟨r, v⟩ := hd
    have hr : r ≠ 0 := by simpa using hl (r, v) (by simp)
    simp only [List.cons_append, applyPairList, List.map_cons]
    rw [if_neg hr]
    exact congrArg (List.cons (PhyEv.wr port 0xfff r v))
      (ih (fun x hx => hl x (by simp [hx])))

/-- C7.  Write-list replay: a pair list terminated by the all-zero
sentinel is applied entry by entry, in order, and the sentinel itself is
never applied; for the three-entry triple list [(p1,r1,v1), (p2,r2,v2),
(0,0,0)] exactly two writes are issued, in that order. -/
theorem c7_write_list_replay (mac port p1 r1 v1 p2 r2 v2 : Nat)
    (l : List (Nat × Nat)) (hl : ∀ x ∈ l, x.1 ≠ 0)
    (hp1 : p1 ≠ 0) (hr1 : r1 ≠ 0) (hp2 : p2 ≠ 0) (hr2 : r2 ≠ 0) :
    applyPairList port (l ++ [(0, 0)]) =
      l.map (fun x => PhyEv.wr port 0xfff x.1 x.2)
    ∧ applyTripleList mac [(p1, r1, v1), (p2, r2, v2), (0, 0, 0)] =
        [PhyEv.wr (mac + p1) 0xfff r1 v1, PhyEv.wr (mac + p2) 0xfff r2 v2] := by
  refine ⟨applyPairList_append_sentinel port l hl, ?_⟩
  simp [applyTripleList, hp1, hr1, hp2, hr2]

/-- Witness for C7 with a concrete two-entry pair list and triple list. -/
theorem c7_write_list_replay_witness :
    applyPairList 5 ([(2, 3), (6, 7)] ++ [(0, 0)]) =
      [PhyEv.wr 5 0xfff 2 3, PhyEv.wr 5 0xfff 6 7]
    ∧ applyTripleList 4 [(1, 2, 3), (4, 5, 6), (0, 0, 0)] =
      [PhyEv.wr 5 0xfff 2 3, PhyEv.wr 8 0xfff 5 6] := by
  have h := c7_write_list_replay 4 5 1 2 3 4 5 6 [(2, 3), (6, 7)]
    (by decide) (by decide) (by decide) (by decide) (by decide)
  exact ⟨h.1.trans (by decide), h.2.trans (by decide)⟩

/-- C8.  The broadcast bracket of rtl8380_configure_ext_rtl8218b is
emitted in the exact required order: the trace decomposes as a prefix, the
broadcast-ID enable write 0xff00+mac, intermediate events, the entire
per-port write-list replay, further events, the broadcast-ID disable write
0x00+mac, and a fixed tail — with no other broadcast-ID-register write
anywhere in the surrounding segments, so no bracket write is reordered
relative to the replay. -/
theorem c8_broadcast_bracket_order (mac : Nat) (l : List (Nat × Nat)) :
    ∃ a b c,
      rtl8380_bcast_patch_trace mac l
        = a ++ [PhyEv.wr mac 0xfff 0x16 (0xff00 + mac)] ++ b ++ applyPairList mac l
            ++ c ++ [PhyEv.wr mac 0xfff 0x16 (0x00 + mac)]
            ++ [PhyEv.wr mac 0xfff 0x1f 0x0000, PhyEv.wr mac 0xfff 0x1d 0x0000,
                PhyEv.sleep 1]
      ∧ a.all (fun e => !isBcastIdWrite e) = true
      ∧ b.all (fun e => !isBcastIdWrite e) = true
      ∧ c.all (fun e => !isBcastIdWrite e) = true := by
  refine ⟨[PhyEv.wr mac 0xfff 0x1f 0x0000, PhyEv.wr mac 0xfff 0x1d 0x0008,
           PhyEv.wr mac 0xfff 0x1f 0x0266],
          [PhyEv.wr mac 0xfff 0x1f 0x0000, PhyEv.wr mac 0xfff 0x1d 0x0000,
           PhyEv.sleep 1, PhyEv.wr mac 0xfff 30 8, PhyEv.wr mac 0x26e 17 0xb,
           PhyEv.wr mac 0x26e 16 0x2, PhyEv.sleep 1, PhyEv.rd mac 0x26e 19,
           PhyEv.wr mac 0 30 0],
          [PhyEv.wr mac 0xfff 0x1f 0x0000, PhyEv.wr mac 0xfff 0x1d 0x0008,
           PhyEv.wr mac 0xfff 0x1f 0x0266], ?_, ?_, ?_, ?_⟩
  · simp [rtl8380_bcast_patch_trace]
  · rfl
  · rfl
  · rfl

/-- C9.  On the RTL8390-family shadow-register SerDes with chip id
0x8393: register 2 reads as 0x1c and register 3 as 0x8393, both without
any hardware access; every other register is fetched from the shadow
register (one MMIO read at the lane- and register-derived offset) and
masked to 16 bits. -/
theorem c9_rtl839x_simulated_phy_id (xsgBase : Nat) (σ : SwState) (a r : Nat)
    (h2 : r ≠ 2) (h3 : r ≠ 3) :
    rtl839x_read_sds_phy 0x8393 xsgBase σ a 2 = (0x1c, [])
    ∧ rtl839x_read_sds_phy 0x8393 xsgBase σ a 3 = (0x8393, [])
    ∧ (rtl839x_read_sds_phy 0x8393 xsgBase σ a r).2 =
        [xsgBase + (if a = 49 then 0x100 else 0) + 0x80 + ((r <<< 1) &&& 0xfc)]
    ∧ (rtl839x_read_sds_phy 0x8393 xsgBase σ a r).1 =
        (if r % 2 = 1 then
          (sw_r32 σ (xsgBase + (if a = 49 then 0x100 else 0) + 0x80
              + ((r <<< 1) &&& 0xfc)) >>> 16) &&& 0xffff
        else
          sw_r32 σ (xsgBase + (if a = 49 then 0x100 else 0) + 0x80
              + ((r <<< 1) &&& 0xfc)) &&& 0xffff)
    ∧ (rtl839x_read_sds_phy 0x8393 xsgBase σ a r).1 < 65536 := by
  refine ⟨by simp [rtl839x_read_sds_phy], by simp [rtl839x_read_sds_phy], ?_, ?_, ?_⟩
  · simp [rtl839x_read_sds_phy, h2, h3]
    split <;> rfl
  · simp [rtl839x_read_sds_phy, h2, h3]
    split <;> rfl
  · simp only [rtl839x_read_sds_phy, h2, h3, and_false, if_false]
    split
    · exact lt_of_le_of_lt Nat.and_le_right (by norm_num)
    · exact lt_of_le_of_lt Nat.and_le_right (by norm_num)

/-- Witness for C9 at lane 49, register 7, with the identity shadow
contents. -/
theorem c9_rtl839x_simulated_phy_id_witness :
    (7 : Nat) ≠ 2 ∧ (7 : Nat) ≠ 3
    ∧ rtl839x_read_sds_phy 0x8393 0 (fun x => x) 49 2 = (0x1c, [])
    ∧ (rtl839x_read_sds_phy 0x8393 0 (fun x => x) 49 7).1 < 65536 :=
  ⟨by decide, by decide,
    (c9_rtl839x_simulated_phy_id 0 (fun x => x) 49 7 (by decide) (by decide)).1,
    (c9_rtl839x_simulated_phy_id 0 (fun x => x) 49 7 (by decide) (by decide)).2.2.2.2⟩

/-- C10.  The RTL8218B MMD write always goes through the RTL8380-family
transport regardless of the active family, while the MMD read goes
through the family dispatcher; hence on every family other than RTL8380
the read and write paths of the same PHY use different transports. -/
theorem c10_mmd_write_bypasses_dispatch (fam : SocFamily)
    (addr devnum regnum v : Nat) :
    (∀ g : SocFamily, (rtl8218b_write_mmd g addr devnum regnum v).1 =
        MmdTransport.t838x)
    ∧ (rtl8218b_read_mmd fam addr devnum regnum).1 =
        (read_mmd_phy fam addr devnum regnum).1
    ∧ (rtl8218b_read_mmd SocFamily.rtl8390 addr devnum regnum).1 = MmdTransport.t839x
    ∧ (rtl8218b_read_mmd SocFamily.rtl9300 addr devnum regnum).1 = MmdTransport.t930x
    ∧ (rtl8218b_read_mmd SocFamily.rtl9310 addr devnum regnum).1 = MmdTransport.t931x
    ∧ (fam ≠ SocFamily.rtl8380 →
        (rtl8218b_read_mmd fam addr devnum regnum).1 ≠
          (rtl8218b_write_mmd fam addr devnum regnum v).1) := by
  refine ⟨fun g => rfl, rfl, rfl, rfl, rfl, ?_⟩
  intro hne
  cases fam with
  | rtl8380 => exact absurd rfl hne
  | rtl8390 => simp [rtl8218b_read_mmd, rtl8218b_write_mmd, read_mmd_phy]
  | rtl9300 => simp [rtl8218b_read_mmd, rtl8218b_write_mmd, read_mmd_phy]
  | rtl9310 => simp [rtl8218b_read_mmd, rtl8218b_write_mmd, read_mmd_phy]

/-- Witness for C10 on the RTL9300, where the read path uses the RTL9300
transport but the write path still uses the RTL8380 transport. -/
theorem c10_mmd_write_bypasses_dispatch_witness :
    SocFamily.rtl9300 ≠ SocFamily.rtl8380
    ∧ (rtl8218b_read_mmd SocFamily.rtl9300 1 2 3).1 ≠
        (rtl8218b_write_mmd SocFamily.rtl9300 1 2 3 4).1 :=
  ⟨by decide,
    (c10_mmd_write_bypasses_dispatch SocFamily.rtl9300 1 2 3 4).2.2.2.2.2 (by decide)⟩
